import Mathlib

/-
  Verification development for the STX streaming contract
  (src/SPL/contracts/stream copy.clar).

  The contract is embedded shallowly:
  - Clarity uint is modelled as Nat together with checked 128-bit
    arithmetic (uadd / usub / umul): Clarity aborts the transaction on
    arithmetic under- or overflow, it does not wrap and does not saturate.
  - principals are modelled as Nat (a standard principal is version byte
    plus hash160, 21 bytes, hence the bound 2 ^ 168 where serialization
    injectivity is at stake).
  - the streams data map is a function Nat -> Option StreamRec, map-set
    is the function mapSet below.
  - a public function returns TxRes a paired with the post state; on an
    err response or a runtime abort Clarity rolls back every effect of
    the call, so those branches return the original state.
  - the external primitives (sha256, secp256k1-recover?, principal-of?)
    are fields of a ContractEnv parameter; stx-transfer? is modelled with
    the documented Clarity error codes (err u1 insufficient balance,
    err u2 sender equals recipient, err u3 non-positive amount).
  - stacks-block-height is passed explicitly as the parameter height.
-/

/-- Result of a Clarity public call or fallible primitive: an ok value, a
Clarity response error (err uN), or a runtime abort (arithmetic
under/overflow rolls back the whole transaction). -/
inductive TxRes (α : Type) where
  | ok (v : α) : TxRes α
  | err (code : Nat) : TxRes α
  | abort : TxRes α
deriving DecidableEq

/-- Clarity uints are 128-bit. -/
def U128 : Nat := 2 ^ 128

/-- Checked Clarity addition on uint: aborts (none) on 128-bit overflow. -/
def uadd (a b : Nat) : Option Nat :=
  if a + b < U128 then some (a + b) else none

/-- Checked Clarity subtraction on uint: aborts (none) on underflow.
Clarity subtraction is not saturating. -/
def usub (a b : Nat) : Option Nat :=
  if b ≤ a then some (a - b) else none

/-- Checked Clarity multiplication on uint: aborts (none) on overflow. -/
def umul (a b : Nat) : Option Nat :=
  if a * b < U128 then some (a * b) else none

/-- Clarity map-set on a map keyed by uint. -/
def mapSet {α : Type} (m : Nat → Option α) (k : Nat) (v : α) : Nat → Option α :=
  fun j => if j = k then some v else m j

/-- The timeframe tuple start-block / stop-block. -/
structure Timeframe where
  startBlock : Nat
  stopBlock : Nat
deriving DecidableEq

/-- One entry of the streams map (the stream tuple of the contract). -/
structure StreamRec where
  sender : Nat
  recipient : Nat
  balance : Nat
  withdrawnBalance : Nat
  paymentPerBlock : Nat
  timeframe : Timeframe
deriving DecidableEq

/-- Contract state: the streams data map, the latest-stream-id data var,
and the STX account balances of the surrounding ledger (indexed by
principal; the contract principal holds the custodied funds). -/
structure ChainState where
  streams : Nat → Option StreamRec
  latestStreamId : Nat
  accounts : Nat → Nat

/-- External collaborators of the contract: the contract principal
(as-contract tx-sender) and the cryptographic primitives sha256,
secp256k1-recover? and principal-of?.  recover and principalOf return
none where the Clarity primitive returns an err response. -/
structure ContractEnv where
  contract : Nat
  sha256 : List Nat → List Nat
  recover : List Nat → List Nat → Option (List Nat)
  principalOf : List Nat → Option Nat

/-- Error constants of the contract (the uN payload of each err). -/
def ERR_UNAUTHORIZED : Nat := 0

/-- Error u1: invalid signature in update-details. -/
def ERR_INVALID_SIGNATURE : Nat := 1

/-- Error u2: refund attempted before the stop block has passed. -/
def ERR_STREAM_STILL_ACTIVE : Nat := 2

/-- Error u3: the stream id is not present in the map. -/
def ERR_INVALID_STREAM_ID : Nat := 3

/-- Error u4: zero amount (initial balance or refuel). -/
def ERR_INVALID_AMOUNT : Nat := 4

/-- Error u5: timeframe with stop-block not above start-block. -/
def ERR_INVALID_TIMEFRAME : Nat := 5

/-- Native stx-transfer?: err u3 on a non-positive amount, err u2 when
sender and recipient coincide, err u1 when the sender balance is
insufficient; on success returns the updated account map. -/
def stxTransfer (amount sender recipient : Nat) (accounts : Nat → Nat) :
    TxRes (Nat → Nat) :=
  if amount = 0 then .err 3
  else if sender = recipient then .err 2
  else if accounts sender < amount then .err 1
  else .ok (fun p =>
    if p = sender then accounts sender - amount
    else if p = recipient then accounts recipient + amount
    else accounts p)

/-- Public function stream-to: validates the timeframe, then the initial
balance, transfers the initial balance into custody, stores the new
record under the current latest-stream-id and increments the counter. -/
def streamTo (env : ContractEnv) (st : ChainState) (caller : Nat)
    (recipient : Nat) (initialBalance : Nat) (timeframe : Timeframe)
    (paymentPerBlock : Nat) : TxRes Nat × ChainState :=
  let stream : StreamRec :=
    ⟨caller, recipient, initialBalance, 0, paymentPerBlock, timeframe⟩
  let currentStreamId := st.latestStreamId
  if timeframe.startBlock < timeframe.stopBlock then
    if 0 < initialBalance then
      match stxTransfer initialBalance caller env.contract st.accounts with
      | .ok acc2 =>
        match uadd currentStreamId 1 with
        | some nextId =>
          (.ok currentStreamId,
            ⟨mapSet st.streams currentStreamId stream, nextId, acc2⟩)
        | none => (.abort, st)
      | .err e => (.err e, st)
      | .abort => (.abort, st)
    else (.err ERR_INVALID_AMOUNT, st)
  else (.err ERR_INVALID_TIMEFRAME, st)

/-- Public function refuel: only the sender may refuel, the amount must
be positive, the amount is transferred into custody and added to the
stream balance. -/
def refuel (env : ContractEnv) (st : ChainState) (caller : Nat)
    (streamId : Nat) (amount : Nat) : TxRes Nat × ChainState :=
  match st.streams streamId with
  | none => (.err ERR_INVALID_STREAM_ID, st)
  | some stream =>
    if caller = stream.sender then
      if 0 < amount then
        match stxTransfer amount caller env.contract st.accounts with
        | .ok acc2 =>
          match uadd stream.balance amount with
          | some b2 =>
            (.ok amount,
              ⟨mapSet st.streams streamId { stream with balance := b2 },
                st.latestStreamId, acc2⟩)
          | none => (.abort, st)
        | .err e => (.err e, st)
        | .abort => (.abort, st)
      else (.err ERR_INVALID_AMOUNT, st)
    else (.err ERR_UNAUTHORIZED, st)

/-- Read-only calculate-block-delta: 0 before start, elapsed blocks while
active, full duration past stop.  The subtraction in the past-stop branch
is the contract's own (- stop-block start-block) and aborts if the stored
timeframe has stop-block below start-block. -/
def calculateBlockDelta (timeframe : Timeframe) (height : Nat) : Option Nat :=
  if height ≤ timeframe.startBlock then some 0
  else if height < timeframe.stopBlock then usub height timeframe.startBlock
  else usub timeframe.stopBlock timeframe.startBlock

/-- Read-only balance-of: a missing stream yields u0; the vested amount
block-delta * payment-per-block is computed before the who branches; the
recipient sees vested minus withdrawn, the sender sees balance minus
vested, anyone else sees u0.  Both subtractions are Clarity's checked
subtraction. -/
def balanceOf (st : ChainState) (streamId : Nat) (who : Nat) (height : Nat) :
    Option Nat :=
  match st.streams streamId with
  | none => some 0
  | some stream =>
    match calculateBlockDelta stream.timeframe height with
    | none => none
    | some blockDelta =>
      match umul blockDelta stream.paymentPerBlock with
      | none => none
      | some recipientBalance =>
        if who = stream.recipient then
          usub recipientBalance stream.withdrawnBalance
        else if who = stream.sender then
          usub stream.balance recipientBalance
        else some 0

/-- Public function withdraw: the claimable balance of the caller is
computed eagerly (before the authorization check, as in the contract's
let), only the recipient may withdraw, withdrawn-balance is increased by
the claim and the claim is transferred from custody to the recipient.
A failing transfer (in particular a zero claim, err u3) rolls back. -/
def withdraw (env : ContractEnv) (st : ChainState) (caller : Nat)
    (height : Nat) (streamId : Nat) : TxRes Nat × ChainState :=
  match st.streams streamId with
  | none => (.err ERR_INVALID_STREAM_ID, st)
  | some stream =>
    match balanceOf st streamId caller height with
    | none => (.abort, st)
    | some balance =>
      if caller = stream.recipient then
        match uadd stream.withdrawnBalance balance with
        | some w2 =>
          match stxTransfer balance env.contract stream.recipient st.accounts with
          | .ok acc2 =>
            (.ok balance,
              ⟨mapSet st.streams streamId { stream with withdrawnBalance := w2 },
                st.latestStreamId, acc2⟩)
          | .err e => (.err e, st)
          | .abort => (.abort, st)
        | none => (.abort, st)
      else (.err ERR_UNAUTHORIZED, st)

/-- Public function refund: the sender's excess is computed eagerly
(before both asserts, as in the contract's let), only the sender may
refund and only past the stop block; the excess is removed from the
stream balance and transferred back to the sender. -/
def refund (env : ContractEnv) (st : ChainState) (caller : Nat)
    (height : Nat) (streamId : Nat) : TxRes Nat × ChainState :=
  match st.streams streamId with
  | none => (.err ERR_INVALID_STREAM_ID, st)
  | some stream =>
    match balanceOf st streamId stream.sender height with
    | none => (.abort, st)
    | some balance =>
      if caller = stream.sender then
        if stream.timeframe.stopBlock < height then
          match usub stream.balance balance with
          | some b2 =>
            match stxTransfer balance env.contract stream.sender st.accounts with
            | .ok acc2 =>
              (.ok balance,
                ⟨mapSet st.streams streamId { stream with balance := b2 },
                  st.latestStreamId, acc2⟩)
            | .err e => (.err e, st)
            | .abort => (.abort, st)
          | none => (.abort, st)
        else (.err ERR_STREAM_STILL_ACTIVE, st)
      else (.err ERR_UNAUTHORIZED, st)

/-- Big-endian fixed-width byte encoding of a Nat, w bytes. -/
def bytesBE : Nat → Nat → List Nat
  | 0, _ => []
  | w + 1, n => bytesBE w (n / 256) ++ [n % 256]

/-- Consensus serialization of a Clarity uint: type tag 0x01 followed by
16 big-endian bytes. -/
def encodeUint (n : Nat) : List Nat := 1 :: bytesBE 16 n

/-- Consensus serialization of a standard principal: type tag 0x05
followed by the version byte and the 20-byte hash160, modelled as 21
big-endian bytes of the principal's Nat value. -/
def encodePrincipal (p : Nat) : List Nat := 5 :: bytesBE 21 p

/-- Serialization of a tuple field name: one length byte followed by the
ASCII bytes of the name. -/
def encodeName (s : String) : List Nat := s.length :: s.data.map Char.toNat

/-- Leading bytes of a tuple serialization: type tag 0x0c followed by the
field count as 4 big-endian bytes. -/
def tupleHeader (n : Nat) : List Nat := 12 :: bytesBE 4 n

/-- Consensus serialization of the timeframe tuple; fields in
lexicographic name order (start-block before stop-block). -/
def encodeTimeframe (tf : Timeframe) : List Nat :=
  tupleHeader 2 ++
    (encodeName "start-block" ++
      (encodeUint tf.startBlock ++
        (encodeName "stop-block" ++ encodeUint tf.stopBlock)))

/-- Consensus serialization of the stream tuple; the six fields in
lexicographic name order: balance, payment-per-block, recipient, sender,
timeframe, withdrawn-balance. -/
def encodeStream (s : StreamRec) : List Nat :=
  tupleHeader 6 ++
    (encodeName "balance" ++
      (encodeUint s.balance ++
        (encodeName "payment-per-block" ++
          (encodeUint s.paymentPerBlock ++
            (encodeName "recipient" ++
              (encodePrincipal s.recipient ++
                (encodeName "sender" ++
                  (encodePrincipal s.sender ++
                    (encodeName "timeframe" ++
                      (encodeTimeframe s.timeframe ++
                        (encodeName "withdrawn-balance" ++
                          encodeUint s.withdrawnBalance)))))))))))

/-- The message hashed by hash-stream: the serialized current stream
record, then the serialized proposed payment-per-block, then the
serialized proposed timeframe.  The stream id itself is not part of the
message. -/
def encodeMsg (s : StreamRec) (newPaymentPerBlock : Nat)
    (newTimeframe : Timeframe) : List Nat :=
  encodeStream s ++ (encodeUint newPaymentPerBlock ++ encodeTimeframe newTimeframe)

/-- Read-only hash-stream: sha256 of the concatenated serializations; a
missing stream id degrades to sha256 of the int 0, whose 16-byte
little-endian representation is sixteen zero bytes. -/
def hashStream (env : ContractEnv) (st : ChainState) (streamId : Nat)
    (newPaymentPerBlock : Nat) (newTimeframe : Timeframe) : List Nat :=
  match st.streams streamId with
  | none => env.sha256 (List.replicate 16 0)
  | some stream => env.sha256 (encodeMsg stream newPaymentPerBlock newTimeframe)

/-- Read-only validate-signature: recover the public key from the hash
and signature (false if recovery fails), map it to a principal and
compare the resulting response with (ok signer). -/
def validateSignature (env : ContractEnv) (hash : List Nat)
    (signature : List Nat) (signer : Nat) : Bool :=
  match env.recover hash signature with
  | none => false
  | some pubkey =>
    match env.principalOf pubkey with
    | some p => p == signer
    | none => false

/-- Public function update-details: fetch the stream (err
INVALID_STREAM_ID), check the signature over the recomputed digest (err
INVALID_SIGNATURE), check that caller and signer are the two stream
parties in one of the two orders (err UNAUTHORIZED), then overwrite
payment-per-block and timeframe only. -/
def updateDetails (env : ContractEnv) (st : ChainState) (caller : Nat)
    (streamId : Nat) (paymentPerBlock : Nat) (timeframe : Timeframe)
    (signer : Nat) (signature : List Nat) : TxRes Bool × ChainState :=
  match st.streams streamId with
  | none => (.err ERR_INVALID_STREAM_ID, st)
  | some stream =>
    if validateSignature env (hashStream env st streamId paymentPerBlock timeframe)
        signature signer then
      if (stream.sender = caller ∧ stream.recipient = signer) ∨
          (stream.sender = signer ∧ stream.recipient = caller) then
        (.ok true,
          ⟨mapSet st.streams streamId
              { stream with paymentPerBlock := paymentPerBlock,
                            timeframe := timeframe },
            st.latestStreamId, st.accounts⟩)
      else (.err ERR_UNAUTHORIZED, st)
    else (.err ERR_INVALID_SIGNATURE, st)

/-- One public call of the contract together with its caller. -/
inductive ContractAction where
  | createS (caller recipient initialBalance : Nat) (tf : Timeframe) (rate : Nat)
  | refuelS (caller streamId amount : Nat)
  | withdrawS (caller streamId : Nat)
  | refundS (caller streamId : Nat)
  | updateS (caller streamId rate : Nat) (tf : Timeframe) (signer : Nat)
      (signature : List Nat)

/-- State transition of one public call at a given block height (a failed
call leaves the state unchanged by construction of the functions). -/
def stepAction (env : ContractEnv) (st : ChainState) (height : Nat) :
    ContractAction → ChainState
  | .createS caller recipient initialBalance tf rate =>
    (streamTo env st caller recipient initialBalance tf rate).2
  | .refuelS caller streamId amount => (refuel env st caller streamId amount).2
  | .withdrawS caller streamId => (withdraw env st caller height streamId).2
  | .refundS caller streamId => (refund env st caller height streamId).2
  | .updateS caller streamId rate tf signer signature =>
    (updateDetails env st caller streamId rate tf signer signature).2

/-- Deployment state: empty streams map, counter at 0, arbitrary STX
accounts. -/
def initialState (accounts : Nat → Nat) : ChainState :=
  ⟨fun _ => none, 0, accounts⟩

/-- States reachable from deployment by public calls at non-decreasing
block heights, paired with the current observation height. -/
inductive ChainReachable (env : ContractEnv) : ChainState → Nat → Prop where
  | init (accounts : Nat → Nat) (h : Nat) :
      ChainReachable env (initialState accounts) h
  | step {st : ChainState} {h h2 : Nat} (a : ContractAction) :
      ChainReachable env st h → h ≤ h2 →
      ChainReachable env (stepAction env st h2 a) h2
  | tick {st : ChainState} {h h2 : Nat} :
      ChainReachable env st h → h ≤ h2 → ChainReachable env st h2

/-- Actions other than update-details. -/
def noUpdate : ContractAction → Prop
  | .updateS _ _ _ _ _ _ => False
  | _ => True

/-- States reachable by public calls at non-decreasing heights without
any update-details call. -/
inductive ChainReachableNU (env : ContractEnv) : ChainState → Nat → Prop where
  | init (accounts : Nat → Nat) (h : Nat) :
      ChainReachableNU env (initialState accounts) h
  | step {st : ChainState} {h h2 : Nat} (a : ContractAction) :
      ChainReachableNU env st h → h ≤ h2 → noUpdate a →
      ChainReachableNU env (stepAction env st h2 a) h2
  | tick {st : ChainState} {h h2 : Nat} :
      ChainReachableNU env st h → h ≤ h2 → ChainReachableNU env st h2

/-- The spec's elapsed function (section 4.2), total: 0 before start,
now - start while active, stop - start past stop. -/
def elapsedSpec (tf : Timeframe) (now : Nat) : Nat :=
  if now ≤ tf.startBlock then 0
  else if now < tf.stopBlock then now - tf.startBlock
  else tf.stopBlock - tf.startBlock

/-- Per-stream vesting invariant of spec section 8 at an observation
height: withdrawn-balance is at most elapsed times payment-per-block. -/
def vestedOk (st : ChainState) (height : Nat) : Prop :=
  ∀ id rec, st.streams id = some rec →
    rec.withdrawnBalance ≤ elapsedSpec rec.timeframe height * rec.paymentPerBlock

/-- Freshness invariant of the id counter: every id at or above
latest-stream-id is unused. -/
def freshOk (st : ChainState) : Prop :=
  ∀ j, st.latestStreamId ≤ j → st.streams j = none

/-- Field bounds under which the uint serialization is faithful: every
Clarity uint is below 2 ^ 128. -/
def TimeframeOk (tf : Timeframe) : Prop :=
  tf.startBlock < U128 ∧ tf.stopBlock < U128

/-- Field bounds of a stream record: uint fields below 2 ^ 128 and
principals below 2 ^ 168 (21 serialized bytes). -/
def StreamOk (s : StreamRec) : Prop :=
  s.sender < 2 ^ 168 ∧ s.recipient < 2 ^ 168 ∧ s.balance < U128 ∧
    s.withdrawnBalance < U128 ∧ s.paymentPerBlock < U128 ∧ TimeframeOk s.timeframe

/-- Concrete scenario: cheap signature oracle.  Signature bytes [7]
recover to public key [9] regardless of digest, and key [9] is principal
2 (the recipient below).  The sha256 field is irrelevant here. -/
def envA : ContractEnv :=
  ⟨100, fun _ => [], fun _ sig => if sig = [7] then some [9] else none,
    fun pk => if pk = [9] then some 2 else none⟩

/-- Concrete scenario: every account starts with 1000000 micro-STX. -/
def acctA : Nat → Nat := fun _ => 1000000

/-- Concrete scenario timeframe: start 0, stop 5. -/
def tfA : Timeframe := ⟨0, 5⟩

/-- Deployment state of the concrete scenario. -/
def stA0 : ChainState := initialState acctA

/-- After stream-to by principal 1 for recipient 2, balance 5, rate 1:
stream 0 is created. -/
def stA1 : ChainState := (streamTo envA stA0 1 2 5 tfA 1).2

/-- After a withdraw by the recipient at height 4: withdrawn becomes 4. -/
def stA2 : ChainState := (withdraw envA stA1 2 4 0).2

/-- After a consented update-details setting payment-per-block to 0
(caller 1 the sender, signer 2 the recipient). -/
def stA3 : ChainState := (updateDetails envA stA2 1 0 0 tfA 2 [7]).2

/-- The record of stream 0 right after creation in the scenario. -/
def recA : StreamRec := ⟨1, 2, 5, 0, 1, tfA⟩

/-- The record of stream 0 after the height-4 withdraw. -/
def recA2 : StreamRec := ⟨1, 2, 5, 4, 1, tfA⟩

/-- The record of stream 0 after the rate-0 update. -/
def recA3 : StreamRec := ⟨1, 2, 5, 4, 0, tfA⟩

/-- Digest input of the identity proposal (current rate 1 and current
timeframe) over the freshly created record. -/
def msgB : List Nat := encodeMsg recA 1 tfA

/-- Digest-sensitive environment: sha256 is the identity serialization
(injective), and signature [7] recovers to key [9] exactly on the digest
of the identity proposal over the fresh record. -/
def envB : ContractEnv :=
  ⟨100, fun m => m,
    fun d sig => if sig = [7] ∧ d = msgB then some [9] else none,
    fun pk => if pk = [9] then some 2 else none⟩

/-- Stream 0 created under envB (same creation call as stA1). -/
def stB1 : ChainState := (streamTo envB stA0 1 2 5 tfA 1).2

/-- After an update-details that re-proposes the current rate 1 and the
current timeframe: the call succeeds and rewrites the same values. -/
def stB2 : ChainState := (updateDetails envB stB1 1 0 1 tfA 2 [7]).2

/-- Proposal timeframe used for the cross-stream replay scenario. -/
def tfC : Timeframe := ⟨0, 9⟩

/-- Digest input of the proposal (rate 3, timeframe tfC) over the fresh
record: this is the digest of stream 0's proposal, signed off-chain. -/
def msgC : List Nat := encodeMsg recA 3 tfC

/-- Digest-sensitive environment for the cross-stream replay: signature
[7] recovers to key [9] exactly on the digest msgC computed for
stream 0. -/
def envC : ContractEnv :=
  ⟨100, fun m => m,
    fun d sig => if sig = [7] ∧ d = msgC then some [9] else none,
    fun pk => if pk = [9] then some 2 else none⟩

/-- First creation under envC: stream 0. -/
def stC1 : ChainState := (streamTo envC stA0 1 2 5 tfA 1).2

/-- Second identical creation under envC: stream 1 holds a record equal
to stream 0's. -/
def stC2 : ChainState := (streamTo envC stC1 1 2 5 tfA 1).2

/-- Stream whose vesting outruns its balance: balance 1, rate 1000,
timeframe 0..5; past the stop block the sender-excess subtraction
underflows. -/
def stD1 : ChainState := (streamTo envA stA0 1 2 1 tfA 1000).2

/-- Elimination for checked subtraction. -/
theorem usub_eq {a b c : Nat} (h : usub a b = some c) : b ≤ a ∧ c = a - b := by
  unfold usub at h
  split at h <;> simp_all

/-- Introduction for checked subtraction. -/
theorem usub_of_le {a b : Nat} (h : b ≤ a) : usub a b = some (a - b) := by
  unfold usub
  simp [h]

/-- Elimination for checked addition. -/
theorem uadd_eq {a b c : Nat} (h : uadd a b = some c) : c = a + b := by
  unfold uadd at h
  split at h <;> simp_all

/-- Elimination for checked multiplication. -/
theorem umul_eq {a b c : Nat} (h : umul a b = some c) : c = a * b := by
  unfold umul at h
  split at h <;> simp_all

/-- Whenever calculate-block-delta returns a value, that value is the
spec's elapsed function. -/
theorem calcDelta_eq {tf : Timeframe} {h d : Nat}
    (hd : calculateBlockDelta tf h = some d) : d = elapsedSpec tf h := by
  unfold calculateBlockDelta at hd
  unfold elapsedSpec
  split_ifs at hd ⊢ with h1 h2
  · exact (Option.some_inj.mp hd).symm
  · rcases usub_eq hd with ⟨_, rfl⟩
    rfl
  · rcases usub_eq hd with ⟨_, rfl⟩
    rfl

/-- The spec's elapsed function is monotone in the observation height. -/
theorem elapsedSpec_mono {tf : Timeframe} {h h2 : Nat} (hle : h ≤ h2) :
    elapsedSpec tf h ≤ elapsedSpec tf h2 := by
  unfold elapsedSpec
  split_ifs <;> omega

/-- The vesting bound survives moving the observation height forward. -/
theorem vestedOk_mono {st : ChainState} {h h2 : Nat} (hv : vestedOk st h)
    (hle : h ≤ h2) : vestedOk st h2 := by
  intro id rec hrec
  exact le_trans (hv id rec hrec)
    (Nat.mul_le_mul_right _ (elapsedSpec_mono hle))

/-- Setting one entry preserves the vesting bound when the new record
satisfies it. -/
theorem vestedOk_set {st : ChainState} {h : Nat} {id : Nat} {rec : StreamRec}
    {L : Nat} {A : Nat → Nat} (hv : vestedOk st h)
    (hrec : rec.withdrawnBalance ≤ elapsedSpec rec.timeframe h * rec.paymentPerBlock) :
    vestedOk ⟨mapSet st.streams id rec, L, A⟩ h := by
  intro j r hj
  dsimp only [mapSet] at hj
  by_cases hji : j = id
  · rw [if_pos hji] at hj
    cases hj
    exact hrec
  · rw [if_neg hji] at hj
    exact hv j r hj

/-- Recipient claim accounting: when balance-of returns a value for the
recipient, withdrawn plus that value equals the vested amount. -/
theorem balanceOf_recipient {st : ChainState} {id who h bal : Nat}
    {rec : StreamRec} (hrec : st.streams id = some rec)
    (hwho : who = rec.recipient) (hb : balanceOf st id who h = some bal) :
    rec.withdrawnBalance + bal =
      elapsedSpec rec.timeframe h * rec.paymentPerBlock := by
  unfold balanceOf at hb
  rw [hrec] at hb
  dsimp only at hb
  cases hd : calculateBlockDelta rec.timeframe h with
  | none => rw [hd] at hb; cases hb
  | some d =>
    rw [hd] at hb
    dsimp only at hb
    cases hm : umul d rec.paymentPerBlock with
    | none => rw [hm] at hb; cases hb
    | some rb =>
      rw [hm] at hb
      dsimp only at hb
      rw [if_pos hwho] at hb
      rcases usub_eq hb with ⟨hle, rfl⟩
      have hdh : d = elapsedSpec rec.timeframe h := calcDelta_eq hd
      subst hdh
      have hrb : rb = elapsedSpec rec.timeframe h * rec.paymentPerBlock :=
        umul_eq hm
      omega

/-- stream-to preserves the vesting bound (a new stream starts with zero
withdrawn balance). -/
theorem vestedOk_streamTo {env : ContractEnv} {st : ChainState}
    {caller r ib rate h : Nat} {tf : Timeframe} (hv : vestedOk st h) :
    vestedOk (streamTo env st caller r ib tf rate).2 h := by
  unfold streamTo
  dsimp only
  split_ifs
  · split
    · split
      · exact vestedOk_set hv (Nat.zero_le _)
      · exact hv
    · exact hv
    · exact hv
  · exact hv
  · exact hv

/-- refuel preserves the vesting bound (it changes only the balance). -/
theorem vestedOk_refuel {env : ContractEnv} {st : ChainState}
    {caller id amount h : Nat} (hv : vestedOk st h) :
    vestedOk (refuel env st caller id amount).2 h := by
  unfold refuel
  split
  · exact hv
  case _ stream hrec =>
    split_ifs
    · split
      · split
        · exact vestedOk_set hv (hv id stream hrec)
        · exact hv
      · exact hv
      · exact hv
    · exact hv
    · exact hv

/-- withdraw preserves the vesting bound: a successful withdraw raises
withdrawn exactly to the vested amount at the call height. -/
theorem vestedOk_withdraw {env : ContractEnv} {st : ChainState}
    {caller h id : Nat} (hv : vestedOk st h) :
    vestedOk (withdraw env st caller h id).2 h := by
  unfold withdraw
  split
  · exact hv
  case _ stream hrec =>
    cases hb : balanceOf st id caller h with
    | none => exact hv
    | some bal =>
      dsimp only
      split_ifs with hwho
      · cases ha : uadd stream.withdrawnBalance bal with
        | none => exact hv
        | some w2 =>
          dsimp only
          split
          · apply vestedOk_set hv
            have hacct := balanceOf_recipient hrec hwho hb
            have hw2 := uadd_eq ha
            simp only []
            omega
          · exact hv
          · exact hv
      · exact hv

/-- refund preserves the vesting bound (it changes only the balance). -/
theorem vestedOk_refund {env : ContractEnv} {st : ChainState}
    {caller h id : Nat} (hv : vestedOk st h) :
    vestedOk (refund env st caller h id).2 h := by
  unfold refund
  split
  · exact hv
  case _ stream hrec =>
    cases hb : balanceOf st id stream.sender h with
    | none => exact hv
    | some bal =>
      dsimp only
      split_ifs
      · cases hs : usub stream.balance bal with
        | none => exact hv
        | some b2 =>
          dsimp only
          split
          · exact vestedOk_set hv (hv id stream hrec)
          · exact hv
          · exact hv
      · exact hv
      · exact hv

/-- Every state reachable without update-details satisfies the vesting
bound at its observation height. -/
theorem reachableNU_vestedOk {env : ContractEnv} {st : ChainState} {h : Nat}
    (hr : ChainReachableNU env st h) : vestedOk st h := by
  induction hr with
  | init accounts h =>
    intro j r hj
    cases hj
  | step a hr hle hnu ih =>
    have ih2 := vestedOk_mono ih hle
    cases a with
    | createS caller recipient ib tf rate => exact vestedOk_streamTo ih2
    | refuelS caller id amount => exact vestedOk_refuel ih2
    | withdrawS caller id => exact vestedOk_withdraw ih2
    | refundS caller id => exact vestedOk_refund ih2
    | updateS caller id rate tf signer sig => exact hnu.elim
  | tick hr hle ih => exact vestedOk_mono ih hle

/-- Overwriting an existing entry preserves freshness of the counter. -/
theorem freshOk_set_existing {st : ChainState} {id : Nat} {rec rec2 : StreamRec}
    {A : Nat → Nat} (hf : freshOk st) (hex : st.streams id = some rec) :
    freshOk ⟨mapSet st.streams id rec2, st.latestStreamId, A⟩ := by
  intro j hj
  dsimp only [mapSet]
  by_cases hji : j = id
  · subst hji
    rw [hf j hj] at hex
    cases hex
  · rw [if_neg hji]
    exact hf j hj

/-- stream-to preserves freshness of the counter. -/
theorem freshOk_streamTo {env : ContractEnv} {st : ChainState}
    {caller r ib rate : Nat} {tf : Timeframe} (hf : freshOk st) :
    freshOk (streamTo env st caller r ib tf rate).2 := by
  unfold streamTo
  dsimp only
  split_ifs
  · split
    · split
      case _ acc2 nextId hadd =>
        have hnext := uadd_eq hadd
        intro j hj
        dsimp only at hj ⊢
        rw [hnext] at hj
        dsimp only [mapSet]
        rw [if_neg (by omega)]
        exact hf j (by omega)
      · exact hf
    · exact hf
    · exact hf
  · exact hf
  · exact hf

/-- refuel preserves freshness of the counter. -/
theorem freshOk_refuel {env : ContractEnv} {st : ChainState}
    {caller id amount : Nat} (hf : freshOk st) :
    freshOk (refuel env st caller id amount).2 := by
  unfold refuel
  split
  · exact hf
  case _ stream hrec =>
    split_ifs
    · split
      · split
        · exact freshOk_set_existing hf hrec
        · exact hf
      · exact hf
      · exact hf
    · exact hf
    · exact hf

/-- withdraw preserves freshness of the counter. -/
theorem freshOk_withdraw {env : ContractEnv} {st : ChainState}
    {caller h id : Nat} (hf : freshOk st) :
    freshOk (withdraw env st caller h id).2 := by
  unfold withdraw
  split
  · exact hf
  case _ stream hrec =>
    split
    · exact hf
    · split_ifs
      · split
        · split
          · exact freshOk_set_existing hf hrec
          · exact hf
          · exact hf
        · exact hf
      · exact hf

/-- refund preserves freshness of the counter. -/
theorem freshOk_refund {env : ContractEnv} {st : ChainState}
    {caller h id : Nat} (hf : freshOk st) :
    freshOk (refund env st caller h id).2 := by
  unfold refund
  split
  · exact hf
  case _ stream hrec =>
    split
    · exact hf
    · split_ifs
      · split
        · split
          · exact freshOk_set_existing hf hrec
          · exact hf
          · exact hf
        · exact hf
      · exact hf
      · exact hf

/-- update-details preserves freshness of the counter. -/
theorem freshOk_update {env : ContractEnv} {st : ChainState}
    {caller id rate signer : Nat} {tf : Timeframe} {sig : List Nat}
    (hf : freshOk st) :
    freshOk (updateDetails env st caller id rate tf signer sig).2 := by
  unfold updateDetails
  split
  · exact hf
  case _ stream hrec =>
    split_ifs
    · exact freshOk_set_existing hf hrec
    · exact hf
    · exact hf

/-- Every reachable state keeps all ids at or above the counter unused:
stream ids are handed out sequentially and never reused. -/
theorem reachable_freshOk {env : ContractEnv} {st : ChainState} {h : Nat}
    (hr : ChainReachable env st h) : freshOk st := by
  induction hr with
  | init accounts h => intro j hj; rfl
  | step a hr hle ih =>
    cases a with
    | createS caller recipient ib tf rate => exact freshOk_streamTo ih
    | refuelS caller id amount => exact freshOk_refuel ih
    | withdrawS caller id => exact freshOk_withdraw ih
    | refundS caller id => exact freshOk_refund ih
    | updateS caller id rate tf signer sig => exact freshOk_update ih
  | tick hr hle ih => exact ih

/-- A fixed-width big-endian encoding has its width as length. -/
theorem bytesBE_length (w n : Nat) : (bytesBE w n).length = w := by
  induction w generalizing n with
  | zero => rfl
  | succ w ih => simp [bytesBE, ih]

/-- The fixed-width big-endian encoding is injective on values that fit
the width. -/
theorem bytesBE_inj {w a b : Nat} (ha : a < 256 ^ w) (hb : b < 256 ^ w)
    (h : bytesBE w a = bytesBE w b) : a = b := by
  induction w generalizing a b with
  | zero =>
    simp only [pow_zero] at ha hb
    omega
  | succ w ih =>
    unfold bytesBE at h
    rcases List.append_inj h (by rw [bytesBE_length, bytesBE_length]) with ⟨h1, h2⟩
    have hda : a / 256 < 256 ^ w := by
      rw [Nat.div_lt_iff_lt_mul (by norm_num)]
      calc a < 256 ^ (w + 1) := ha
      _ = 256 ^ w * 256 := by rw [pow_succ]
    have hdb : b / 256 < 256 ^ w := by
      rw [Nat.div_lt_iff_lt_mul (by norm_num)]
      calc b < 256 ^ (w + 1) := hb
      _ = 256 ^ w * 256 := by rw [pow_succ]
    have e1 : a / 256 = b / 256 := ih hda hdb h1
    have e2 : a % 256 = b % 256 := by simpa using h2
    omega

/-- Sixteen big-endian bytes cover exactly the Clarity uint range. -/
theorem pow16 : (256 : Nat) ^ 16 = U128 := by norm_num [U128]

/-- Twenty-one big-endian bytes cover the modelled principal range. -/
theorem pow21 : (256 : Nat) ^ 21 = 2 ^ 168 := by norm_num

/-- Uint serialization is injective on the uint range. -/
theorem encodeUint_inj {a b : Nat} (ha : a < U128) (hb : b < U128)
    (h : encodeUint a = encodeUint b) : a = b := by
  unfold encodeUint at h
  simp only [List.cons.injEq] at h
  exact bytesBE_inj (pow16 ▸ ha) (pow16 ▸ hb) h.2

/-- Splitting a concatenation at a leading uint serialization. -/
theorem uintStep {a b : Nat} {x y : List Nat} (ha : a < U128) (hb : b < U128)
    (h : encodeUint a ++ x = encodeUint b ++ y) : a = b ∧ x = y := by
  rcases List.append_inj h (by simp [encodeUint, bytesBE_length]) with ⟨h1, h2⟩
  exact ⟨encodeUint_inj ha hb h1, h2⟩

/-- Principal serialization is injective on the modelled range. -/
theorem encodePrincipal_inj {a b : Nat} (ha : a < 2 ^ 168) (hb : b < 2 ^ 168)
    (h : encodePrincipal a = encodePrincipal b) : a = b := by
  unfold encodePrincipal at h
  simp only [List.cons.injEq] at h
  exact bytesBE_inj (pow21 ▸ ha) (pow21 ▸ hb) h.2

/-- Splitting a concatenation at a leading principal serialization. -/
theorem principalStep {a b : Nat} {x y : List Nat} (ha : a < 2 ^ 168)
    (hb : b < 2 ^ 168) (h : encodePrincipal a ++ x = encodePrincipal b ++ y) :
    a = b ∧ x = y := by
  rcases List.append_inj h (by simp [encodePrincipal, bytesBE_length]) with ⟨h1, h2⟩
  exact ⟨encodePrincipal_inj ha hb h1, h2⟩

/-- Splitting a concatenation at a leading timeframe serialization. -/
theorem tfStep {t1 t2 : Timeframe} {x y : List Nat} (h1 : TimeframeOk t1)
    (h2 : TimeframeOk t2) (h : encodeTimeframe t1 ++ x = encodeTimeframe t2 ++ y) :
    t1 = t2 ∧ x = y := by
  unfold encodeTimeframe at h
  simp only [List.append_assoc] at h
  have h3 := List.append_cancel_left h
  have h4 := List.append_cancel_left h3
  rcases uintStep h1.1 h2.1 h4 with ⟨hstart, h5⟩
  have h6 := List.append_cancel_left h5
  rcases uintStep h1.2 h2.2 h6 with ⟨hstop, h7⟩
  cases t1
  cases t2
  simp_all

/-- Splitting a concatenation at a leading stream-record serialization:
two bounded records with equal serialized bytes are equal field by
field. -/
theorem streamStep {s1 s2 : StreamRec} {x y : List Nat} (h1 : StreamOk s1)
    (h2 : StreamOk s2) (h : encodeStream s1 ++ x = encodeStream s2 ++ y) :
    s1 = s2 ∧ x = y := by
  unfold encodeStream at h
  simp only [List.append_assoc] at h
  have h3 := List.append_cancel_left h
  have h4 := List.append_cancel_left h3
  rcases uintStep h1.2.2.1 h2.2.2.1 h4 with ⟨hbal, h5⟩
  have h6 := List.append_cancel_left h5
  rcases uintStep h1.2.2.2.2.1 h2.2.2.2.2.1 h6 with ⟨hrate, h7⟩
  have h8 := List.append_cancel_left h7
  rcases principalStep h1.2.1 h2.2.1 h8 with ⟨hrecip, h9⟩
  have h10 := List.append_cancel_left h9
  rcases principalStep h1.1 h2.1 h10 with ⟨hsend, h11⟩
  have h12 := List.append_cancel_left h11
  have htmp := h12
  rcases tfStep h1.2.2.2.2.2 h2.2.2.2.2.2 h12 with ⟨htf, h13⟩
  have h14 := List.append_cancel_left h13
  rcases uintStep h1.2.2.2.1 h2.2.2.2.1 h14 with ⟨hwdr, h15⟩
  cases s1
  cases s2
  simp_all

/-- The digest input of hash-stream is injective over the current record
and the proposed rate and timeframe (with all fields in range): two
different proposals over possibly different record states never share
serialized bytes. -/
theorem encodeMsg_inj {s1 s2 : StreamRec} {r1 r2 : Nat} {t1 t2 : Timeframe}
    (hs1 : StreamOk s1) (hs2 : StreamOk s2) (hr1 : r1 < U128) (hr2 : r2 < U128)
    (ht1 : TimeframeOk t1) (ht2 : TimeframeOk t2)
    (h : encodeMsg s1 r1 t1 = encodeMsg s2 r2 t2) :
    s1 = s2 ∧ r1 = r2 ∧ t1 = t2 := by
  unfold encodeMsg at h
  rcases streamStep hs1 hs2 h with ⟨hs, h2⟩
  rcases uintStep hr1 hr2 h2 with ⟨hr, h3⟩
  have h4 : encodeTimeframe t1 ++ [] = encodeTimeframe t2 ++ [] := by
    simpa using h3
  rcases tfStep ht1 ht2 h4 with ⟨ht, _⟩
  exact ⟨hs, hr, ht⟩

/-- A checked product, when defined, lies below the uint bound. -/
theorem umul_lt {a b c : Nat} (h : umul a b = some c) : c < U128 := by
  unfold umul at h
  split at h <;> simp_all

/-- Introduction for checked addition. -/
theorem uadd_of_lt {a b : Nat} (h : a + b < U128) : uadd a b = some (a + b) := by
  unfold uadd
  simp [h]

/-- Transfer of a zero amount is rejected by the native ledger with
err u3. -/
theorem stxTransfer_zero (sender recipient : Nat) (accounts : Nat → Nat) :
    stxTransfer 0 sender recipient accounts = TxRes.err 3 := by
  unfold stxTransfer
  simp

/-- C1 (amended): a withdraw by the recipient whose claimable amount is
0 does not succeed: the native transfer rejects the zero amount, the call
returns (err u3) and leaves the state unchanged; in particular, after a
successful withdraw, a second withdraw at the same height returns
(err u3) instead of an ok 0. -/
theorem C1_zero_claim_withdraw_errs :
    (∀ env st caller h id rec, st.streams id = some rec →
      caller = rec.recipient → balanceOf st id caller h = some 0 →
      withdraw env st caller h id = (TxRes.err 3, st)) ∧
    (∀ env st st2 caller h id v,
      withdraw env st caller h id = (TxRes.ok v, st2) →
      withdraw env st2 caller h id = (TxRes.err 3, st2)) := by
  constructor
  · intro env st caller h id rec hrec hcaller hzero
    have hw : rec.withdrawnBalance + 0 < U128 := by
      unfold balanceOf at hzero
      rw [hrec] at hzero
      dsimp only at hzero
      cases hd : calculateBlockDelta rec.timeframe h with
      | none => rw [hd] at hzero; cases hzero
      | some d =>
        rw [hd] at hzero
        dsimp only at hzero
        cases hm : umul d rec.paymentPerBlock with
        | none => rw [hm] at hzero; cases hzero
        | some rb =>
          rw [hm] at hzero
          dsimp only at hzero
          rw [if_pos hcaller] at hzero
          rcases usub_eq hzero with ⟨hle, _⟩
          have := umul_lt hm
          omega
    unfold withdraw
    rw [hrec]
    dsimp only
    rw [hzero]
    dsimp only
    rw [if_pos hcaller, uadd_of_lt hw, stxTransfer_zero]
  · intro env st st2 caller h id v h1
    unfold withdraw at h1
    cases hrec : st.streams id with
    | none => rw [hrec] at h1; simp at h1
    | some rec =>
      rw [hrec] at h1
      dsimp only at h1
      cases hb : balanceOf st id caller h with
      | none => rw [hb] at h1; simp at h1
      | some bal =>
        rw [hb] at h1
        dsimp only at h1
        by_cases hcaller : caller = rec.recipient
        · rw [if_pos hcaller] at h1
          cases ha : uadd rec.withdrawnBalance bal with
          | none => rw [ha] at h1; simp at h1
          | some w2 =>
            rw [ha] at h1
            dsimp only at h1
            cases htr : stxTransfer bal env.contract rec.recipient st.accounts with
            | ok acc2 =>
              rw [htr] at h1
              simp only [Prod.mk.injEq, TxRes.ok.injEq] at h1
              rcases h1 with ⟨hv, hst⟩
              -- facts about the first call's claim
              have hacct := balanceOf_recipient hrec hcaller hb
              have hw2 : w2 = rec.withdrawnBalance + bal := uadd_eq ha
              have hvest :
                  w2 = elapsedSpec rec.timeframe h * rec.paymentPerBlock := by
                omega
              -- the vested amount computed inside balanceOf
              unfold balanceOf at hb
              rw [hrec] at hb
              dsimp only at hb
              cases hd : calculateBlockDelta rec.timeframe h with
              | none => rw [hd] at hb; cases hb
              | some d =>
                rw [hd] at hb
                dsimp only at hb
                cases hm : umul d rec.paymentPerBlock with
                | none => rw [hm] at hb; cases hb
                | some rb =>
                  rw [hm] at hb
                  dsimp only at hb
                  rw [if_pos hcaller] at hb
                  rcases usub_eq hb with ⟨hle, hbal⟩
                  have hrb : rb = d * rec.paymentPerBlock := umul_eq hm
                  have hdval : d = elapsedSpec rec.timeframe h := calcDelta_eq hd
                  have hw2rb : w2 = rb := by omega
                  have hrbU : rb < U128 := umul_lt hm
                  -- second call on the written-back state
                  rw [← hst]
                  unfold withdraw
                  have hlook :
                      (mapSet st.streams id { rec with withdrawnBalance := w2 }) id =
                        some { rec with withdrawnBalance := w2 } := by
                    dsimp only [mapSet]
                    rw [if_pos rfl]
                  show _ = _
                  dsimp only
                  rw [hlook]
                  dsimp only
                  have hb2 :
                      balanceOf
                        ⟨mapSet st.streams id { rec with withdrawnBalance := w2 },
                          st.latestStreamId, acc2⟩ id caller h = some 0 := by
                    unfold balanceOf
                    dsimp only
                    rw [hlook]
                    dsimp only
                    rw [hd]
                    dsimp only
                    rw [hm]
                    dsimp only
                    rw [if_pos hcaller]
                    unfold usub
                    rw [if_pos (by omega)]
                    rw [hw2rb, Nat.sub_self]
                  rw [hb2]
                  dsimp only
                  rw [if_pos hcaller]
                  have : uadd w2 0 = some (w2 + 0) := uadd_of_lt (by omega)
                  rw [this, stxTransfer_zero]
            | err e => rw [htr] at h1; simp at h1
            | abort => rw [htr] at h1; simp at h1
        · rw [if_neg hcaller] at h1
          simp at h1

/-- C1 counterexample: in the concrete scenario the first withdraw at
height 4 pays 4, and the second withdraw at the same height returns
(err u3) from the native transfer instead of succeeding with a payout of
0 as the claim states. -/
theorem C1_counterexample :
    (withdraw envA stA1 2 4 0).1 = TxRes.ok 4 ∧
    (withdraw envA stA2 2 4 0).1 = TxRes.err 3 ∧
    (withdraw envA stA2 2 4 0).1 ≠ TxRes.ok 0 ∧
    (withdraw envA stA2 2 4 0).2.streams 0 = stA2.streams 0 := by decide

/-- C1 witness: the amended statement applied to the concrete scenario:
the second same-height withdraw returns (err u3) and changes nothing. -/
theorem C1_witness : withdraw envA stA2 2 4 0 = (TxRes.err 3, stA2) :=
  C1_zero_claim_withdraw_errs.1 envA stA2 2 4 0 recA2 (by decide) rfl (by decide)

/-- C3 (amended): balance-of uses Clarity's checked subtraction, not a
saturating one: for the recipient, when withdrawn-balance exceeds the
vested amount elapsed times payment-per-block, the computation aborts
(returns none in the model) instead of returning 0; when it does not
exceed, the difference is returned. -/
theorem C3_underflow_aborts :
    (∀ st id who h rec d, st.streams id = some rec →
      who = rec.recipient →
      calculateBlockDelta rec.timeframe h = some d →
      d * rec.paymentPerBlock < U128 →
      d * rec.paymentPerBlock < rec.withdrawnBalance →
      balanceOf st id who h = none) ∧
    (∀ st id who h rec d, st.streams id = some rec →
      who = rec.recipient →
      calculateBlockDelta rec.timeframe h = some d →
      d * rec.paymentPerBlock < U128 →
      rec.withdrawnBalance ≤ d * rec.paymentPerBlock →
      balanceOf st id who h =
        some (d * rec.paymentPerBlock - rec.withdrawnBalance)) := by
  constructor
  · intro st id who h rec d hrec hwho hd hfit hgt
    unfold balanceOf
    rw [hrec]
    dsimp only
    rw [hd]
    dsimp only
    unfold umul
    rw [if_pos hfit]
    dsimp only
    rw [if_pos hwho]
    unfold usub
    rw [if_neg (by omega)]
  · intro st id who h rec d hrec hwho hd hfit hle
    unfold balanceOf
    rw [hrec]
    dsimp only
    rw [hd]
    dsimp only
    unfold umul
    rw [if_pos hfit]
    dsimp only
    rw [if_pos hwho]
    unfold usub
    rw [if_pos hle]

/-- C3 counterexample: in the concrete scenario (withdraw 4, then a
consented rate change to 0) the recipient's stored withdrawn balance 4
exceeds the vested amount 0, and balance-of aborts instead of returning
the claimed saturated 0. -/
theorem C3_counterexample :
    stA3.streams 0 = some recA3 ∧
    recA3.recipient = 2 ∧
    recA3.withdrawnBalance = 4 ∧
    elapsedSpec recA3.timeframe 10 * recA3.paymentPerBlock = 0 ∧
    balanceOf stA3 0 2 10 = none ∧
    balanceOf stA3 0 2 10 ≠ some 0 := by decide

/-- C3 witness: both directions of the amended statement at concrete
inputs: the underflowing state aborts, the in-range state returns the
difference. -/
theorem C3_witness :
    balanceOf stA3 0 2 10 = none ∧
    balanceOf stA2 0 2 4 = some 0 := by
  constructor
  · exact C3_underflow_aborts.1 stA3 0 2 10 recA3 5 (by decide) rfl (by decide)
      (by decide) (by decide)
  · exact C3_underflow_aborts.2 stA2 0 2 4 recA2 4 (by decide) rfl (by decide)
      (by decide) (by decide)

/-- Characterization of a successful refuel: the stream exists, the
caller is its sender, the amount is positive, the transfer succeeded, and
the only change is the balance increased by the amount. -/
theorem refuel_ok {env : ContractEnv} {st : ChainState} {caller id amount v : Nat}
    (h : (refuel env st caller id amount).1 = TxRes.ok v) :
    v = amount ∧
    ∃ rec acc2, st.streams id = some rec ∧ caller = rec.sender ∧ 0 < amount ∧
      rec.balance + amount < U128 ∧
      stxTransfer amount caller env.contract st.accounts = TxRes.ok acc2 ∧
      refuel env st caller id amount =
        (TxRes.ok amount,
          ⟨mapSet st.streams id { rec with balance := rec.balance + amount },
            st.latestStreamId, acc2⟩) := by
  unfold refuel at h
  cases hrec : st.streams id with
  | none => rw [hrec] at h; simp at h
  | some rec =>
    rw [hrec] at h
    dsimp only at h
    by_cases hc : caller = rec.sender
    · rw [if_pos hc] at h
      by_cases hp : 0 < amount
      · rw [if_pos hp] at h
        cases htr : stxTransfer amount caller env.contract st.accounts with
        | ok acc2 =>
          rw [htr] at h
          cases ha : uadd rec.balance amount with
          | none => rw [ha] at h; simp at h
          | some b2 =>
            rw [ha] at h
            dsimp only at h
            have hb2 := uadd_eq ha
            have hbound : rec.balance + amount < U128 := by
              unfold uadd at ha
              split at ha <;> simp_all
            refine ⟨by injection h with hv; exact hv.symm,
              rec, acc2, rfl, hc, hp, hbound, rfl, ?_⟩
            unfold refuel
            rw [hrec]
            dsimp only
            rw [if_pos hc, if_pos hp, htr, ha]
            dsimp only
            rw [← hb2]
        | err e => rw [htr] at h; simp at h
        | abort => rw [htr] at h; simp at h
      · rw [if_neg hp] at h; simp at h
    · rw [if_neg hc] at h; simp at h

/-- A refuel that is not a success leaves the whole state unchanged. -/
theorem refuel_fail_state (env : ContractEnv) (st : ChainState)
    (caller id amount : Nat) :
    (refuel env st caller id amount).2 = st ∨
    (refuel env st caller id amount).1 = TxRes.ok amount := by
  unfold refuel
  cases st.streams id with
  | none => exact Or.inl rfl
  | some rec =>
    dsimp only
    split_ifs
    · cases stxTransfer amount caller env.contract st.accounts with
      | ok acc2 =>
        cases uadd rec.balance amount with
        | none => exact Or.inl rfl
        | some b2 => exact Or.inr rfl
      | err e => exact Or.inl rfl
      | abort => exact Or.inl rfl
    · exact Or.inl rfl
    · exact Or.inl rfl

/-- C8: refuel fails with InvalidStreamId on a missing stream, with
Unauthorized for a caller other than the sender, with InvalidAmount for a
zero amount; every failure (error or abort) leaves the state unchanged;
a success returns the amount and only adds the amount to the stream's
balance. -/
theorem C8_refuel_spec :
    ∀ env st caller id amount,
      (st.streams id = none →
        refuel env st caller id amount = (TxRes.err ERR_INVALID_STREAM_ID, st)) ∧
      (∀ rec, st.streams id = some rec → caller ≠ rec.sender →
        refuel env st caller id amount = (TxRes.err ERR_UNAUTHORIZED, st)) ∧
      (∀ rec, st.streams id = some rec → caller = rec.sender → amount = 0 →
        refuel env st caller id amount = (TxRes.err ERR_INVALID_AMOUNT, st)) ∧
      (∀ v, (refuel env st caller id amount).1 = TxRes.ok v →
        v = amount ∧
        (∀ rec, st.streams id = some rec →
          (refuel env st caller id amount).2.streams id =
            some { rec with balance := rec.balance + amount }) ∧
        (∀ j, j ≠ id → (refuel env st caller id amount).2.streams j = st.streams j) ∧
        (refuel env st caller id amount).2.latestStreamId = st.latestStreamId) ∧
      (∀ e, (refuel env st caller id amount).1 = TxRes.err e →
        (refuel env st caller id amount).2 = st) ∧
      ((refuel env st caller id amount).1 = TxRes.abort →
        (refuel env st caller id amount).2 = st) := by
  intro env st caller id amount
  refine ⟨?_, ?_, ?_, ?_, ?_, ?_⟩
  · intro hrec
    unfold refuel
    rw [hrec]
  · intro rec hrec hne
    unfold refuel
    rw [hrec]
    dsimp only
    rw [if_neg hne]
  · intro rec hrec hc h0
    unfold refuel
    rw [hrec]
    dsimp only
    rw [if_pos hc, if_neg (by omega)]
  · intro v hok
    rcases refuel_ok hok with ⟨hv, rec2, acc2, hrec2, _, _, _, _, heq⟩
    refine ⟨hv, ?_, ?_, ?_⟩
    · intro rec hrec
      rw [hrec2] at hrec
      cases hrec
      rw [heq]
      dsimp only [mapSet]
      rw [if_pos rfl]
    · intro j hj
      rw [heq]
      dsimp only [mapSet]
      rw [if_neg hj]
    · rw [heq]
  · intro e herr
    rcases refuel_fail_state env st caller id amount with hst | hok
    · exact hst
    · rw [hok] at herr; cases herr
  · intro hab
    rcases refuel_fail_state env st caller id amount with hst | hok
    · exact hst
    · rw [hok] at hab; cases hab

/-- C8 witness: the concrete scenario exercises every clause: missing
stream, wrong caller, zero amount, and a successful refuel of 5. -/
theorem C8_witness :
    refuel envA stA1 1 5 5 = (TxRes.err ERR_INVALID_STREAM_ID, stA1) ∧
    refuel envA stA1 3 0 5 = (TxRes.err ERR_UNAUTHORIZED, stA1) ∧
    refuel envA stA1 1 0 0 = (TxRes.err ERR_INVALID_AMOUNT, stA1) ∧
    (refuel envA stA1 1 0 5).2.streams 0 =
      some { recA with balance := recA.balance + 5 } := by
  refine ⟨?_, ?_, ?_, ?_⟩
  · exact (C8_refuel_spec envA stA1 1 5 5).1 (by decide)
  · exact (C8_refuel_spec envA stA1 3 0 5).2.1 recA (by decide) (by decide)
  · exact (C8_refuel_spec envA stA1 1 0 0).2.2.1 recA (by decide) rfl rfl
  · exact ((C8_refuel_spec envA stA1 1 0 5).2.2.2.1 5 (by decide)).2.1 recA (by decide)

/-- Characterization of a successful update-details: the stream exists,
the signature validates against the digest of the current record with the
exact proposed rate and timeframe, caller and signer are the two parties
in one of the two orders, and the only change overwrites
payment-per-block and timeframe of that stream. -/
theorem update_ok {env : ContractEnv} {st : ChainState}
    {caller id rate signer : Nat} {tf : Timeframe} {sig : List Nat} {v : Bool}
    (h : (updateDetails env st caller id rate tf signer sig).1 = TxRes.ok v) :
    ∃ rec, st.streams id = some rec ∧
      validateSignature env (hashStream env st id rate tf) sig signer = true ∧
      ((rec.sender = caller ∧ rec.recipient = signer) ∨
        (rec.sender = signer ∧ rec.recipient = caller)) ∧
      updateDetails env st caller id rate tf signer sig =
        (TxRes.ok true,
          ⟨mapSet st.streams id { rec with paymentPerBlock := rate, timeframe := tf },
            st.latestStreamId, st.accounts⟩) := by
  unfold updateDetails at h
  cases hrec : st.streams id with
  | none => rw [hrec] at h; simp at h
  | some rec =>
    rw [hrec] at h
    dsimp only at h
    by_cases hval :
      validateSignature env (hashStream env st id rate tf) sig signer = true
    · rw [if_pos hval] at h
      by_cases hauth :
        (rec.sender = caller ∧ rec.recipient = signer) ∨
          (rec.sender = signer ∧ rec.recipient = caller)
      · refine ⟨rec, rfl, hval, hauth, ?_⟩
        unfold updateDetails
        rw [hrec]
        dsimp only
        rw [if_pos hval, if_pos hauth]
      · rw [if_neg hauth] at h
        simp at h
    · rw [if_neg hval] at h
      simp at h

/-- C7: a successful update-details overwrites only payment-per-block and
timeframe of the targeted stream, leaving sender, recipient, balance,
withdrawn-balance, all other streams, the id counter and the accounts
unchanged; and no update-details call ever fails with InvalidTimeframe,
so the proposed timeframe is not re-validated. -/
theorem C7_update_frame :
    (∀ env st caller id rate tf signer sig rec,
      st.streams id = some rec →
      (updateDetails env st caller id rate tf signer sig).1 = TxRes.ok true →
      (updateDetails env st caller id rate tf signer sig).2.streams id =
        some ⟨rec.sender, rec.recipient, rec.balance, rec.withdrawnBalance,
          rate, tf⟩ ∧
      (∀ j, j ≠ id →
        (updateDetails env st caller id rate tf signer sig).2.streams j =
          st.streams j) ∧
      (updateDetails env st caller id rate tf signer sig).2.latestStreamId =
        st.latestStreamId ∧
      (updateDetails env st caller id rate tf signer sig).2.accounts =
        st.accounts) ∧
    (∀ env st caller id rate tf signer sig,
      (updateDetails env st caller id rate tf signer sig).1 ≠
        TxRes.err ERR_INVALID_TIMEFRAME) := by
  constructor
  · intro env st caller id rate tf signer sig rec hrec hok
    rcases update_ok hok with ⟨rec2, hrec2, _, _, heq⟩
    rw [hrec] at hrec2
    cases hrec2
    refine ⟨?_, ?_, ?_, ?_⟩
    · rw [heq]
      dsimp only [mapSet]
      rw [if_pos rfl]
    · intro j hj
      rw [heq]
      dsimp only [mapSet]
      rw [if_neg hj]
    · rw [heq]
    · rw [heq]
  · intro env st caller id rate tf signer sig h
    unfold updateDetails at h
    cases hrec : st.streams id with
    | none =>
      rw [hrec] at h
      simp [ERR_INVALID_STREAM_ID, ERR_INVALID_TIMEFRAME] at h
    | some rec =>
      rw [hrec] at h
      dsimp only at h
      split_ifs at h with hval hauth
      all_goals dsimp only at h
      all_goals exact absurd h (by decide)

/-- C7 witness: a consented update whose proposed timeframe has stop 3
below start 5 still succeeds and overwrites only rate and timeframe. -/
theorem C7_witness :
    (3 : Nat) ≤ 5 ∧
    (updateDetails envA stA1 1 0 7 ⟨5, 3⟩ 2 [7]).1 = TxRes.ok true ∧
    (updateDetails envA stA1 1 0 7 ⟨5, 3⟩ 2 [7]).2.streams 0 =
      some ⟨recA.sender, recA.recipient, recA.balance, recA.withdrawnBalance,
        7, ⟨5, 3⟩⟩ ∧
    (updateDetails envA stA1 1 0 7 ⟨5, 3⟩ 2 [7]).1 ≠
      TxRes.err ERR_INVALID_TIMEFRAME := by
  refine ⟨by decide, by decide, ?_, ?_⟩
  · exact ((C7_update_frame.1 envA stA1 1 0 7 ⟨5, 3⟩ 2 [7] recA (by decide)
      (by decide))).1
  · exact C7_update_frame.2 envA stA1 1 0 7 ⟨5, 3⟩ 2 [7]

/-- C5: for a stream whose sender and recipient differ, update-details
never succeeds when the caller/signer pair is not the two parties in one
of the two orders, and with a valid signature it fails with Unauthorized;
in particular a self-signed call (caller equal to signer) with a valid
signature fails with Unauthorized. -/
theorem C5_update_auth :
    ∀ env st caller id rate tf signer sig rec,
      st.streams id = some rec → rec.sender ≠ rec.recipient →
      (¬((rec.sender = caller ∧ rec.recipient = signer) ∨
          (rec.sender = signer ∧ rec.recipient = caller)) →
        (∀ v, (updateDetails env st caller id rate tf signer sig).1 ≠ TxRes.ok v) ∧
        (validateSignature env (hashStream env st id rate tf) sig signer = true →
          updateDetails env st caller id rate tf signer sig =
            (TxRes.err ERR_UNAUTHORIZED, st))) ∧
      (caller = signer →
        validateSignature env (hashStream env st id rate tf) sig signer = true →
        updateDetails env st caller id rate tf signer sig =
          (TxRes.err ERR_UNAUTHORIZED, st)) := by
  intro env st caller id rate tf signer sig rec hrec hdistinct
  have herr : ∀ hpair :
      ¬((rec.sender = caller ∧ rec.recipient = signer) ∨
        (rec.sender = signer ∧ rec.recipient = caller)),
      validateSignature env (hashStream env st id rate tf) sig signer = true →
      updateDetails env st caller id rate tf signer sig =
        (TxRes.err ERR_UNAUTHORIZED, st) := by
    intro hpair hval
    unfold updateDetails
    rw [hrec]
    dsimp only
    rw [if_pos hval, if_neg hpair]
  constructor
  · intro hpair
    constructor
    · intro v hok
      rcases update_ok hok with ⟨rec2, hrec2, _, hauth, _⟩
      rw [hrec] at hrec2
      cases hrec2
      exact hpair hauth
    · exact herr hpair
  · intro hcs hval
    refine herr ?_ hval
    rintro (⟨h1, h2⟩ | ⟨h1, h2⟩) <;> exact hdistinct (by omega)

/-- C5 witness: the self-signed concrete update (caller 2, signer 2, a
structurally valid signature) is rejected with Unauthorized. -/
theorem C5_witness :
    updateDetails envA stA1 2 0 7 tfA 2 [7] = (TxRes.err ERR_UNAUTHORIZED, stA1) :=
  (C5_update_auth envA stA1 2 0 7 tfA 2 [7] recA (by decide) (by decide)).2
    rfl (by decide)

/-- Sender excess accounting: when balance-of returns a value for the
sender of a stream whose parties differ, the value is balance minus the
vested amount (which therefore is at most the balance). -/
theorem balanceOf_sender {st : ChainState} {id who ht bal : Nat}
    {rec : StreamRec} (hrec : st.streams id = some rec)
    (hwho : who = rec.sender) (hsr : rec.sender ≠ rec.recipient)
    (hb : balanceOf st id who ht = some bal) :
    elapsedSpec rec.timeframe ht * rec.paymentPerBlock ≤ rec.balance ∧
    bal = rec.balance - elapsedSpec rec.timeframe ht * rec.paymentPerBlock := by
  unfold balanceOf at hb
  rw [hrec] at hb
  dsimp only at hb
  cases hd : calculateBlockDelta rec.timeframe ht with
  | none => rw [hd] at hb; cases hb
  | some d =>
    rw [hd] at hb
    dsimp only at hb
    cases hm : umul d rec.paymentPerBlock with
    | none => rw [hm] at hb; cases hb
    | some rb =>
      rw [hm] at hb
      dsimp only at hb
      rw [if_neg (by rw [hwho]; exact hsr)] at hb
      rw [if_pos hwho] at hb
      rcases usub_eq hb with ⟨hle, rfl⟩
      have hdval : d = elapsedSpec rec.timeframe ht := calcDelta_eq hd
      subst hdval
      have hrb : rb = elapsedSpec rec.timeframe ht * rec.paymentPerBlock :=
        umul_eq hm
      omega

/-- Characterization of a successful refund: the stream exists, its
sender-excess was computed, the caller is the sender, the stop block has
passed, the excess was transferred back and removed from the balance. -/
theorem refund_ok {env : ContractEnv} {st : ChainState} {caller ht id v : Nat}
    (h : (refund env st caller ht id).1 = TxRes.ok v) :
    ∃ rec bal acc2, st.streams id = some rec ∧
      balanceOf st id rec.sender ht = some bal ∧ caller = rec.sender ∧
      rec.timeframe.stopBlock < ht ∧ bal ≤ rec.balance ∧
      stxTransfer bal env.contract rec.sender st.accounts = TxRes.ok acc2 ∧
      v = bal ∧
      refund env st caller ht id =
        (TxRes.ok bal,
          ⟨mapSet st.streams id { rec with balance := rec.balance - bal },
            st.latestStreamId, acc2⟩) := by
  unfold refund at h
  cases hrec : st.streams id with
  | none => rw [hrec] at h; simp at h
  | some rec =>
    rw [hrec] at h
    dsimp only at h
    cases hb : balanceOf st id rec.sender ht with
    | none => rw [hb] at h; simp at h
    | some bal =>
      rw [hb] at h
      dsimp only at h
      by_cases hc : caller = rec.sender
      · rw [if_pos hc] at h
        by_cases hstop : rec.timeframe.stopBlock < ht
        · rw [if_pos hstop] at h
          cases hs : usub rec.balance bal with
          | none => rw [hs] at h; simp at h
          | some b2 =>
            rw [hs] at h
            dsimp only at h
            cases htr : stxTransfer bal env.contract rec.sender st.accounts with
            | ok acc2 =>
              rw [htr] at h
              dsimp only at h
              rcases usub_eq hs with ⟨hle, hb2⟩
              refine ⟨rec, bal, acc2, rfl, hb, hc, hstop, hle, htr,
                by injection h with hv; exact hv.symm, ?_⟩
              unfold refund
              rw [hrec]
              dsimp only
              rw [hb]
              dsimp only
              rw [if_pos hc, if_pos hstop, hs, htr]
              dsimp only
              rw [← hb2]
            | err e => rw [htr] at h; simp at h
            | abort => rw [htr] at h; simp at h
        · rw [if_neg hstop] at h; simp at h
      · rw [if_neg hc] at h; simp at h

/-- C6 (amended): refund computes the sender's excess eagerly, so when
that computation aborts (the vested amount exceeds the balance, or an
arithmetic bound is hit) the call aborts for every caller, before any
authorization check; otherwise it fails Unauthorized for a non-sender
caller, StreamStillActive when the stop block has not passed, and on
success (parties distinct) it returns and removes from the balance
exactly balance minus elapsed times payment-per-block, transferring it to
the sender. -/
theorem C6_refund_spec :
    ∀ env st caller ht id rec, st.streams id = some rec →
      (balanceOf st id rec.sender ht = none →
        refund env st caller ht id = (TxRes.abort, st)) ∧
      (∀ bal, balanceOf st id rec.sender ht = some bal →
        (caller ≠ rec.sender →
          refund env st caller ht id = (TxRes.err ERR_UNAUTHORIZED, st)) ∧
        (caller = rec.sender → ¬rec.timeframe.stopBlock < ht →
          refund env st caller ht id = (TxRes.err ERR_STREAM_STILL_ACTIVE, st))) ∧
      (∀ v, (refund env st caller ht id).1 = TxRes.ok v →
        rec.sender ≠ rec.recipient →
        v = rec.balance - elapsedSpec rec.timeframe ht * rec.paymentPerBlock ∧
        elapsedSpec rec.timeframe ht * rec.paymentPerBlock ≤ rec.balance ∧
        (refund env st caller ht id).2.streams id =
          some { rec with balance := rec.balance - v } ∧
        (∀ j, j ≠ id → (refund env st caller ht id).2.streams j = st.streams j) ∧
        (refund env st caller ht id).2.latestStreamId = st.latestStreamId ∧
        stxTransfer v env.contract rec.sender st.accounts =
          TxRes.ok (refund env st caller ht id).2.accounts) := by
  intro env st caller ht id rec hrec
  refine ⟨?_, ?_, ?_⟩
  · intro hnone
    unfold refund
    rw [hrec]
    dsimp only
    rw [hnone]
  · intro bal hsome
    constructor
    · intro hne
      unfold refund
      rw [hrec]
      dsimp only
      rw [hsome]
      dsimp only
      rw [if_neg hne]
    · intro hc hstop
      unfold refund
      rw [hrec]
      dsimp only
      rw [hsome]
      dsimp only
      rw [if_pos hc, if_neg hstop]
  · intro v hok hsr
    rcases refund_ok hok with
      ⟨rec2, bal, acc2, hrec2, hbal, hc, hstop, hle, htr, hv, heq⟩
    rw [hrec] at hrec2
    cases hrec2
    rcases balanceOf_sender hrec rfl hsr hbal with ⟨hvle, hbalval⟩
    subst hv
    subst hbalval
    refine ⟨rfl, hvle, ?_, ?_, ?_, ?_⟩
    · rw [heq]
      dsimp only [mapSet]
      rw [if_pos rfl]
    · intro j hj
      rw [heq]
      dsimp only [mapSet]
      rw [if_neg hj]
    · rw [heq]
    · rw [heq]
      exact htr

/-- C6 counterexample: a stream whose vesting outran its balance makes
refund abort for a caller who is not the sender, instead of failing with
Unauthorized as the claim states. -/
theorem C6_counterexample :
    stD1.streams 0 = some ⟨1, 2, 1, 0, 1000, tfA⟩ ∧
    (3 : Nat) ≠ 1 ∧
    (refund envA stD1 3 10 0).1 = TxRes.abort ∧
    (refund envA stD1 3 10 0).1 ≠ TxRes.err ERR_UNAUTHORIZED := by decide

/-- C6 witness: the amended clauses at concrete inputs: the abort case,
the Unauthorized case, the StreamStillActive case, and a successful
refund of the excess 5 out of balance 10 after the stop block. -/
theorem C6_witness :
    refund envA stD1 1 10 0 = (TxRes.abort, stD1) ∧
    refund envA stA1 2 10 0 = (TxRes.err ERR_UNAUTHORIZED, stA1) ∧
    refund envA stA1 1 4 0 = (TxRes.err ERR_STREAM_STILL_ACTIVE, stA1) ∧
    (refund envA (streamTo envA stA0 1 2 10 tfA 1).2 1 6 0).2.streams 0 =
      some ⟨1, 2, 5, 0, 1, tfA⟩ := by
  refine ⟨?_, ?_, ?_, ?_⟩
  · exact (C6_refund_spec envA stD1 1 10 0 ⟨1, 2, 1, 0, 1000, tfA⟩
      (by decide)).1 (by decide)
  · exact ((C6_refund_spec envA stA1 2 10 0 recA (by decide)).2.1 0
      (by decide)).1 (by decide)
  · exact ((C6_refund_spec envA stA1 1 4 0 recA (by decide)).2.1 1
      (by decide)).2 rfl (by decide)
  · exact ((C6_refund_spec envA (streamTo envA stA0 1 2 10 tfA 1).2 1 6 0
      ⟨1, 2, 10, 0, 1, tfA⟩ (by decide)).2.2 5 (by decide) (by decide)).2.2.1

/-- C9: stream-to fails with InvalidTimeframe when stop is not above
start and with InvalidAmount when the initial balance is 0; a success
returns the current next-identifier, stores the record with zero
withdrawn balance under it, touches no other stream, and bumps the
counter by one; on any reachable state the slot at the counter is unused
(ids are never reused) and the counter starts at 0. -/
theorem C9_stream_to_spec :
    (∀ env st caller r ib tf rate, tf.stopBlock ≤ tf.startBlock →
      streamTo env st caller r ib tf rate = (TxRes.err ERR_INVALID_TIMEFRAME, st)) ∧
    (∀ env st caller r tf rate, tf.startBlock < tf.stopBlock →
      streamTo env st caller r 0 tf rate = (TxRes.err ERR_INVALID_AMOUNT, st)) ∧
    (∀ env st caller r ib tf rate v,
      (streamTo env st caller r ib tf rate).1 = TxRes.ok v →
      v = st.latestStreamId ∧
      (streamTo env st caller r ib tf rate).2.streams v =
        some ⟨caller, r, ib, 0, rate, tf⟩ ∧
      (∀ j, j ≠ v →
        (streamTo env st caller r ib tf rate).2.streams j = st.streams j) ∧
      (streamTo env st caller r ib tf rate).2.latestStreamId = v + 1) ∧
    (∀ env st h, ChainReachable env st h →
      st.streams st.latestStreamId = none) ∧
    (∀ accounts, (initialState accounts).latestStreamId = 0) := by
  refine ⟨?_, ?_, ?_, ?_, ?_⟩
  · intro env st caller r ib tf rate hstop
    unfold streamTo
    dsimp only
    rw [if_neg (by omega)]
  · intro env st caller r tf rate hstart
    unfold streamTo
    dsimp only
    rw [if_pos hstart, if_neg (by omega)]
  · intro env st caller r ib tf rate v hok
    unfold streamTo at hok
    dsimp only at hok
    by_cases h1 : tf.startBlock < tf.stopBlock
    · rw [if_pos h1] at hok
      by_cases h2 : 0 < ib
      · rw [if_pos h2] at hok
        cases htr : stxTransfer ib caller env.contract st.accounts with
        | ok acc2 =>
          rw [htr] at hok
          cases ha : uadd st.latestStreamId 1 with
          | none => rw [ha] at hok; simp at hok
          | some nextId =>
            rw [ha] at hok
            dsimp only at hok
            injection hok with hv
            subst hv
            have heq : streamTo env st caller r ib tf rate =
                (TxRes.ok st.latestStreamId,
                  ⟨mapSet st.streams st.latestStreamId ⟨caller, r, ib, 0, rate, tf⟩,
                    nextId, acc2⟩) := by
              unfold streamTo
              dsimp only
              rw [if_pos h1, if_pos h2, htr, ha]
            refine ⟨rfl, ?_, ?_, ?_⟩
            · rw [heq]
              dsimp only [mapSet]
              rw [if_pos rfl]
            · intro j hj
              rw [heq]
              dsimp only [mapSet]
              rw [if_neg hj]
            · rw [heq]
              exact uadd_eq ha
        | err e => rw [htr] at hok; simp at hok
        | abort => rw [htr] at hok; simp at hok
      · rw [if_neg h2] at hok; simp at hok
    · rw [if_neg h1] at hok; simp at hok
  · intro env st h hr
    exact reachable_freshOk hr st.latestStreamId (le_refl _)
  · intro accounts
    rfl

/-- C9 witness: the validation failures, a successful creation storing
stream 0 and bumping the counter to 1, and the freshness of the counter
slot on the concrete reachable state. -/
theorem C9_witness :
    streamTo envA stA0 1 2 5 ⟨5, 3⟩ 1 = (TxRes.err ERR_INVALID_TIMEFRAME, stA0) ∧
    streamTo envA stA0 1 2 0 tfA 1 = (TxRes.err ERR_INVALID_AMOUNT, stA0) ∧
    (streamTo envA stA0 1 2 5 tfA 1).2.streams 0 = some recA ∧
    (streamTo envA stA0 1 2 5 tfA 1).2.latestStreamId = 1 ∧
    stA1.streams stA1.latestStreamId = none := by
  refine ⟨?_, ?_, ?_, ?_, ?_⟩
  · exact C9_stream_to_spec.1 envA stA0 1 2 5 ⟨5, 3⟩ 1 (by decide)
  · exact C9_stream_to_spec.2.1 envA stA0 1 2 tfA 1 (by decide)
  · exact (C9_stream_to_spec.2.2.1 envA stA0 1 2 5 tfA 1 0 (by decide)).2.1
  · exact (C9_stream_to_spec.2.2.1 envA stA0 1 2 5 tfA 1 0 (by decide)).2.2.2
  · exact C9_stream_to_spec.2.2.2.1 envA stA1 0
      (ChainReachable.step (ContractAction.createS 1 2 5 tfA 1)
        (ChainReachable.init acctA 0) (le_refl 0))

/-- C4 (amended): the invariant withdrawn-balance at most elapsed times
payment-per-block holds at every observation point for every stream state
reachable by stream-to, refuel, withdraw and refund at non-decreasing
heights; a consented update-details that lowers the rate (or shrinks the
timeframe) can break it, so the claim holds only for update-free call
sequences. -/
theorem C4_invariant_no_update :
    ∀ env st h, ChainReachableNU env st h →
      ∀ id rec, st.streams id = some rec →
        rec.withdrawnBalance ≤
          elapsedSpec rec.timeframe h * rec.paymentPerBlock := by
  intro env st h hr
  exact reachableNU_vestedOk hr

/-- C4 counterexample: the concrete trace create, withdraw 4 at height 4,
then a consented update to rate 0 reaches a state violating the claimed
invariant: withdrawn 4 exceeds elapsed times rate 0. -/
theorem C4_counterexample :
    ChainReachable envA stA3 4 ∧
    stA3.streams 0 = some recA3 ∧
    ¬recA3.withdrawnBalance ≤
      elapsedSpec recA3.timeframe 4 * recA3.paymentPerBlock := by
  refine ⟨?_, by decide, by decide⟩
  exact ChainReachable.step (ContractAction.updateS 1 0 0 tfA 2 [7])
    (ChainReachable.step (ContractAction.withdrawS 2 0)
      (ChainReachable.step (ContractAction.createS 1 2 5 tfA 1)
        (ChainReachable.init acctA 0) (le_refl 0)) (by omega)) (le_refl 4)

/-- C4 witness: the amended invariant evaluated on the update-free
concrete trace create then withdraw, observed at height 4. -/
theorem C4_witness :
    stA2.streams 0 = some recA2 ∧
    recA2.withdrawnBalance ≤
      elapsedSpec recA2.timeframe 4 * recA2.paymentPerBlock := by
  refine ⟨by decide, ?_⟩
  refine C4_invariant_no_update envA stA2 4 ?_ 0 recA2 (by decide)
  exact ChainReachableNU.step (ContractAction.withdrawS 2 0)
    (ChainReachableNU.step (ContractAction.createS 1 2 5 tfA 1)
      (ChainReachableNU.init acctA 0) (le_refl 0) trivial) (by omega) trivial

/-- A successful native transfer has a positive amount. -/
theorem stxTransfer_ok_pos {amount sender recipient : Nat} {accounts acc2 : Nat → Nat}
    (h : stxTransfer amount sender recipient accounts = TxRes.ok acc2) :
    0 < amount := by
  unfold stxTransfer at h
  split_ifs at h
  omega

/-- Characterization of a successful withdraw: the stream exists, the
caller is its recipient, the claim was computed, transferred, and added
to the withdrawn balance. -/
theorem withdraw_ok {env : ContractEnv} {st : ChainState} {caller ht id v : Nat}
    (h : (withdraw env st caller ht id).1 = TxRes.ok v) :
    ∃ rec bal acc2, st.streams id = some rec ∧
      balanceOf st id caller ht = some bal ∧ caller = rec.recipient ∧
      rec.withdrawnBalance + bal < U128 ∧
      stxTransfer bal env.contract rec.recipient st.accounts = TxRes.ok acc2 ∧
      v = bal ∧
      withdraw env st caller ht id =
        (TxRes.ok bal,
          ⟨mapSet st.streams id
              { rec with withdrawnBalance := rec.withdrawnBalance + bal },
            st.latestStreamId, acc2⟩) := by
  unfold withdraw at h
  cases hrec : st.streams id with
  | none => rw [hrec] at h; simp at h
  | some rec =>
    rw [hrec] at h
    dsimp only at h
    cases hb : balanceOf st id caller ht with
    | none => rw [hb] at h; simp at h
    | some bal =>
      rw [hb] at h
      dsimp only at h
      by_cases hc : caller = rec.recipient
      · rw [if_pos hc] at h
        cases ha : uadd rec.withdrawnBalance bal with
        | none => rw [ha] at h; simp at h
        | some w2 =>
          rw [ha] at h
          dsimp only at h
          cases htr : stxTransfer bal env.contract rec.recipient st.accounts with
          | ok acc2 =>
            rw [htr] at h
            dsimp only at h
            have hw2 := uadd_eq ha
            have hbound : rec.withdrawnBalance + bal < U128 := by
              unfold uadd at ha
              split at ha <;> simp_all
            refine ⟨rec, bal, acc2, rfl, rfl, hc, hbound, htr,
              by injection h with hv; exact hv.symm, ?_⟩
            unfold withdraw
            rw [hrec]
            dsimp only
            rw [hb]
            dsimp only
            rw [if_pos hc, ha, htr]
            dsimp only
            rw [← hw2]
          | err e => rw [htr] at h; simp at h
          | abort => rw [htr] at h; simp at h
      · rw [if_neg hc] at h; simp at h

/-- C2 (amended): update-details accepts a signature only against the
digest of the stored record of the given id together with the exact
proposed rate and timeframe, and rejects with InvalidSignature otherwise;
for an injective hash, proposals differing in record content, rate or
timeframe have different digests; but the stream id itself is not part of
the digest, so two streams holding identical records share digests and a
signature produced for one is accepted for the other. -/
theorem C2_digest_binding :
    (∀ env st caller id rate tf signer sig v,
      (updateDetails env st caller id rate tf signer sig).1 = TxRes.ok v →
      validateSignature env (hashStream env st id rate tf) sig signer = true) ∧
    (∀ env st caller id rate tf signer sig rec,
      st.streams id = some rec →
      validateSignature env (hashStream env st id rate tf) sig signer = false →
      updateDetails env st caller id rate tf signer sig =
        (TxRes.err ERR_INVALID_SIGNATURE, st)) ∧
    (∀ env st1 st2 id1 id2 rate1 rate2 tf1 tf2 rec1 rec2,
      Function.Injective env.sha256 →
      st1.streams id1 = some rec1 → st2.streams id2 = some rec2 →
      StreamOk rec1 → StreamOk rec2 → rate1 < U128 → rate2 < U128 →
      TimeframeOk tf1 → TimeframeOk tf2 →
      (rec1, rate1, tf1) ≠ (rec2, rate2, tf2) →
      hashStream env st1 id1 rate1 tf1 ≠ hashStream env st2 id2 rate2 tf2) := by
  refine ⟨?_, ?_, ?_⟩
  · intro env st caller id rate tf signer sig v hok
    rcases update_ok hok with ⟨rec, _, hval, _, _⟩
    exact hval
  · intro env st caller id rate tf signer sig rec hrec hval
    unfold updateDetails
    rw [hrec]
    dsimp only
    rw [if_neg (by simp [hval])]
  · intro env st1 st2 id1 id2 rate1 rate2 tf1 tf2 rec1 rec2 hinj h1 h2 hs1 hs2
      hr1 hr2 ht1 ht2 hne heq
    unfold hashStream at heq
    rw [h1, h2] at heq
    dsimp only at heq
    have hmsg := hinj heq
    rcases encodeMsg_inj hs1 hs2 hr1 hr2 ht1 ht2 hmsg with ⟨e1, e2, e3⟩
    exact hne (by rw [e1, e2, e3])

set_option maxRecDepth 100000 in
/-- C2 counterexample: two streams created with identical parameters hold
identical records, so the digest of the same proposal over stream 0 and
over stream 1 coincides, and the signature produced for stream 0's
proposal is accepted by update-details on stream 1 instead of failing
with InvalidSignature. -/
theorem C2_counterexample :
    (0 : Nat) ≠ 1 ∧
    stC2.streams 0 = some recA ∧
    stC2.streams 1 = some recA ∧
    hashStream envC stC2 0 3 tfC = hashStream envC stC2 1 3 tfC ∧
    validateSignature envC (hashStream envC stC2 0 3 tfC) [7] 2 = true ∧
    (updateDetails envC stC2 1 1 3 tfC 2 [7]).1 = TxRes.ok true := by
  refine ⟨by decide, by decide, by decide, rfl, by decide, by decide⟩

set_option maxRecDepth 100000 in
/-- C2 witness: the amended clauses at concrete inputs: a successful
update implies the signature validated against the recomputed digest, an
invalid signature is rejected with InvalidSignature, and under the
injective identity hash two proposals differing only in the rate have
different digests. -/
theorem C2_witness :
    validateSignature envC (hashStream envC stC2 1 3 tfC) [7] 2 = true ∧
    updateDetails envA stA1 1 0 7 tfA 2 [8] =
      (TxRes.err ERR_INVALID_SIGNATURE, stA1) ∧
    hashStream envB stB1 0 1 tfA ≠ hashStream envB stB1 0 2 tfA := by
  refine ⟨?_, ?_, ?_⟩
  · exact C2_digest_binding.1 envC stC2 1 1 3 tfC 2 [7] true (by decide)
  · exact C2_digest_binding.2.1 envA stA1 1 0 7 tfA 2 [8] recA (by decide)
      (by decide)
  · exact C2_digest_binding.2.2 envB stB1 stB1 0 0 1 2 tfA tfA recA recA
      (by intro a b hab; exact hab) (by decide) (by decide)
      (by norm_num [StreamOk, TimeframeOk, recA, tfA, U128])
      (by norm_num [StreamOk, TimeframeOk, recA, tfA, U128])
      (by norm_num [U128]) (by norm_num [U128])
      (by norm_num [TimeframeOk, tfA, U128])
      (by norm_num [TimeframeOk, tfA, U128]) (by decide)

/-- C10 (amended): the consent digest hashes the serialization of the
entire current record (balance and withdrawn-balance included) followed
by the proposed rate and timeframe; for a fixed proposal, bounded records
differing in any field yield different digest inputs; every successful
refuel, withdraw or refund changes the stored record (and hence the
digest input); but a successful update changes the record only when the
applied rate or timeframe differs from the stored ones, so an update
re-proposing the current values leaves every digest unchanged and does
not invalidate a previously signed consent signature. -/
theorem C10_digest_record_binding :
    (∀ env st id rate tf rec, st.streams id = some rec →
      hashStream env st id rate tf =
        env.sha256
          (encodeStream rec ++ (encodeUint rate ++ encodeTimeframe tf))) ∧
    (∀ rec1 rec2 rate tf, StreamOk rec1 → StreamOk rec2 → rec1 ≠ rec2 →
      encodeMsg rec1 rate tf ≠ encodeMsg rec2 rate tf) ∧
    (∀ env st caller id amount v rec, st.streams id = some rec →
      (refuel env st caller id amount).1 = TxRes.ok v →
      (refuel env st caller id amount).2.streams id ≠ some rec) ∧
    (∀ env st caller ht id v rec, st.streams id = some rec →
      (withdraw env st caller ht id).1 = TxRes.ok v →
      (withdraw env st caller ht id).2.streams id ≠ some rec) ∧
    (∀ env st caller ht id v rec, st.streams id = some rec →
      (refund env st caller ht id).1 = TxRes.ok v →
      (refund env st caller ht id).2.streams id ≠ some rec) ∧
    (∀ env st caller id rate tf signer sig rec, st.streams id = some rec →
      (updateDetails env st caller id rate tf signer sig).1 = TxRes.ok true →
      ((updateDetails env st caller id rate tf signer sig).2.streams id =
          some rec ↔
        rate = rec.paymentPerBlock ∧ tf = rec.timeframe)) := by
  refine ⟨?_, ?_, ?_, ?_, ?_, ?_⟩
  · intro env st id rate tf rec hrec
    unfold hashStream
    rw [hrec]
    dsimp only
    rfl
  · intro rec1 rec2 rate tf hs1 hs2 hne heq
    unfold encodeMsg at heq
    rcases streamStep hs1 hs2 heq with ⟨hr, _⟩
    exact hne hr
  · intro env st caller id amount v rec hrec hok heq
    rcases refuel_ok hok with ⟨hv, rec2, acc2, hrec2, _, hpos, _, _, hfull⟩
    rw [hrec] at hrec2
    cases hrec2
    rw [hfull] at heq
    dsimp only [mapSet] at heq
    rw [if_pos rfl] at heq
    injection heq with heq2
    have := congrArg StreamRec.balance heq2
    dsimp only at this
    omega
  · intro env st caller ht id v rec hrec hok heq
    rcases withdraw_ok hok with ⟨rec2, bal, acc2, hrec2, hbal, _, _, htr, _, hfull⟩
    rw [hrec] at hrec2
    cases hrec2
    have hpos := stxTransfer_ok_pos htr
    rw [hfull] at heq
    dsimp only [mapSet] at heq
    rw [if_pos rfl] at heq
    injection heq with heq2
    have := congrArg StreamRec.withdrawnBalance heq2
    dsimp only at this
    omega
  · intro env st caller ht id v rec hrec hok heq
    rcases refund_ok hok with
      ⟨rec2, bal, acc2, hrec2, hbal, _, _, hle, htr, _, hfull⟩
    rw [hrec] at hrec2
    cases hrec2
    have hpos := stxTransfer_ok_pos htr
    rw [hfull] at heq
    dsimp only [mapSet] at heq
    rw [if_pos rfl] at heq
    injection heq with heq2
    have := congrArg StreamRec.balance heq2
    dsimp only at this
    omega
  · intro env st caller id rate tf signer sig rec hrec hok
    rcases update_ok hok with ⟨rec2, hrec2, _, _, hfull⟩
    rw [hrec] at hrec2
    cases hrec2
    rw [hfull]
    dsimp only [mapSet]
    rw [if_pos rfl]
    constructor
    · intro heq
      injection heq with heq2
      constructor
      · exact (congrArg StreamRec.paymentPerBlock heq2)
      · exact (congrArg StreamRec.timeframe heq2)
    · rintro ⟨hr, ht2⟩
      rw [hr, ht2]

set_option maxRecDepth 100000 in
/-- C10 counterexample: an update-details call that re-proposes the
stream's current rate and timeframe succeeds, leaves the record (and so
every digest input) unchanged, and the very same consent signature is
accepted again by a second update: an intervening update does not always
invalidate a previously signed consent signature. -/
theorem C10_counterexample :
    (updateDetails envB stB1 1 0 1 tfA 2 [7]).1 = TxRes.ok true ∧
    stB2.streams 0 = stB1.streams 0 ∧
    hashStream envB stB2 0 1 tfA = hashStream envB stB1 0 1 tfA ∧
    validateSignature envB (hashStream envB stB2 0 1 tfA) [7] 2 = true ∧
    (updateDetails envB stB2 1 0 1 tfA 2 [7]).1 = TxRes.ok true := by
  refine ⟨by decide, by decide, rfl, by decide, by decide⟩

set_option maxRecDepth 100000 in
/-- C10 witness: the amended clauses at concrete inputs: the digest shape
over the stored record, distinct records give distinct digest inputs, a
successful refuel, withdraw and refund each change the stored record, and
the identity update leaves it unchanged. -/
theorem C10_witness :
    hashStream envB stB1 0 1 tfA =
      envB.sha256 (encodeStream recA ++ (encodeUint 1 ++ encodeTimeframe tfA)) ∧
    encodeMsg recA 1 tfA ≠ encodeMsg recA2 1 tfA ∧
    (refuel envA stA1 1 0 5).2.streams 0 ≠ some recA ∧
    (withdraw envA stA1 2 4 0).2.streams 0 ≠ some recA ∧
    (refund envA (streamTo envA stA0 1 2 10 tfA 1).2 1 6 0).2.streams 0 ≠
      some ⟨1, 2, 10, 0, 1, tfA⟩ ∧
    (updateDetails envB stB1 1 0 1 tfA 2 [7]).2.streams 0 = some recA := by
  refine ⟨?_, ?_, ?_, ?_, ?_, ?_⟩
  · exact C10_digest_record_binding.1 envB stB1 0 1 tfA recA (by decide)
  · exact C10_digest_record_binding.2.1 recA recA2 1 tfA
      (by norm_num [StreamOk, TimeframeOk, recA, tfA, U128])
      (by norm_num [StreamOk, TimeframeOk, recA2, tfA, U128]) (by decide)
  · exact C10_digest_record_binding.2.2.1 envA stA1 1 0 5 5 recA (by decide)
      (by decide)
  · exact C10_digest_record_binding.2.2.2.1 envA stA1 2 4 0 4 recA (by decide)
      (by decide)
  · exact C10_digest_record_binding.2.2.2.2.1 envA
      (streamTo envA stA0 1 2 10 tfA 1).2 1 6 0 5 ⟨1, 2, 10, 0, 1, tfA⟩
      (by decide) (by decide)
  · exact (C10_digest_record_binding.2.2.2.2.2 envB stB1 1 0 1 tfA 2 [7] recA
      (by decide) (by decide)).mpr ⟨rfl, rfl⟩
